import Mathlib

/-!
Shallow embedding of the GCP resource-construction engine of
`src/boskos/gcp/config.go` (package `gcp` of istio test-infra).

Modelling decisions, all noted inline where they apply:
* Go maps (`common.TypeToResources`, `ResourceInfo`) are modelled as
  association lists with unique keys; a Go map assignment
  (`typesCopy := types`) copies only the map header, so both names denote
  one shared table — the model therefore threads a single map value
  through `construct` and returns its final state, which is exactly what
  the caller's map has become.
* Go's `for rType, pcs := range rc` iterates a map in unspecified order;
  the model iterates the association list in the order given.
* The concurrent `errgroup` fan-out is modelled by the canonical schedule
  in which tasks settle in dispatch order and cancellation is observed
  immediately after the first failure: a task after the first failing one
  does not invoke its creator and sends nothing.
* A Go runtime panic (index out of range, nil dereference) is modelled as
  a distinguished `Outcome.panic` / `Option.none`; a producer blocked
  forever on a full channel (and hence a run that never returns) is
  modelled as `Outcome.deadlock`.
* External collaborators (the GKE/GCE creators and `listZones` of the
  `Client` interfaces, whose implementations live outside this file's
  sources) are parameters of the model, as an environment `GcpEnv`.
  `common.Resource` and `common.UserData` (external boskos library) are
  modelled with just the parts `construct` touches: a resource name, and
  the single user-data key `ResourceConfigType` holding the inventory.
-/

/-- `InstanceInfo` stores information about a cluster or a vm instance. -/
structure InstanceInfo where
  name : String
  zone : String
deriving DecidableEq, Repr

/-- `ProjectInfo` stores cluster and vm information for a given GCP project. -/
structure ProjectInfo where
  Clusters : List InstanceInfo := []
  VMs : List InstanceInfo := []
deriving DecidableEq, Repr

/-- `ResourceInfo` (Go: `map[string]ProjectInfo`), as an association list
keyed by project name. -/
def ResourceInfo : Type := List (String × ProjectInfo)

instance : DecidableEq ResourceInfo := by unfold ResourceInfo; infer_instance

/-- Cluster creation request; only its `Zone` field is inspected by the
engine (the remaining shape fields are opaque to `construct` and are
carried as an opaque payload name). -/
structure clusterConfig where
  Name : String := ""
  Zone : String := ""
deriving DecidableEq, Repr

/-- Virtual-machine creation request; as with `clusterConfig`, only `Zone`
is inspected by the engine. -/
structure virtualMachineConfig where
  Name : String := ""
  Zone : String := ""
deriving DecidableEq, Repr

/-- One entry of the declarative request: desired clusters and vms to be
placed on a single popped project. -/
structure projectConfig where
  Clusters : List clusterConfig := []
  Vms : List virtualMachineConfig := []
deriving DecidableEq, Repr

/-- `resourceConfigs` (Go: `map[string][]projectConfig`), as an association
list from resource-kind label to project configs, iterated in list order. -/
def resourceConfigs : Type := List (String × List projectConfig)

/-- `common.Resource` restricted to the field `construct` reads (`Name`). -/
structure Resource where
  name : String
deriving DecidableEq, Repr

/-- `common.TypeToResources` (Go: `map[string][]common.Resource`),
as an association list. -/
def TypeToResources : Type := List (String × List Resource)

instance : DecidableEq TypeToResources := by unfold TypeToResources; infer_instance

/-- Go map read `m[k]` for a slice-valued map: a missing key yields the
zero value, the empty slice. -/
def ttrGet (m : TypeToResources) (k : String) : List Resource :=
  match m.find? (fun e => e.1 == k) with
  | some e => e.2
  | none => []

/-- Go map write `m[k] = v`: update the entry in place, or add it. -/
def ttrSet (m : TypeToResources) (k : String) (v : List Resource) : TypeToResources :=
  match m with
  | [] => [(k, v)]
  | e :: rest => if e.1 == k then (k, v) :: rest else e :: ttrSet rest k v

/-- `maxChannels`: fixed capacity of the result channel. -/
def maxChannels : Nat := 100

/-- The `com` struct used for communication between goroutines: the owning
project and at most one of the two instance-info pointers. -/
structure com where
  p : String
  ci : Option InstanceInfo := none
  vmi : Option InstanceInfo := none
deriving DecidableEq, Repr

/-- `stringRing`: a cursor over a list of zone names. -/
structure stringRing where
  index : Nat := 0
  values : List String
deriving DecidableEq, Repr

/-- `stringRing.next`: reads `values[index]` and advances the cursor by one
modulo the length.  Go panics (index out of range) when the read is out of
bounds — modelled as `none`. -/
def stringRing.next (r : stringRing) : Option (String × stringRing) :=
  match r.values.get? r.index with
  | none => none
  | some value => some (value, { r with index := (r.index + 1) % r.values.length })

/-- `newStringRing`: builds a ring over the given zones, cursor at 0.
Construction never fails, even on an empty list. -/
def newStringRing (zones : List String) : stringRing :=
  { values := zones }

/-- Iterated draws: the list of the first `n` values produced by successive
`next` calls, or `none` if any call panics. -/
def stringRing.draws (r : stringRing) : Nat → Option (List String)
  | 0 => some []
  | n + 1 =>
    match r.next with
    | none => none
    | some (v, r2) => (r2.draws n).map (fun vs => v :: vs)

/-- The external cloud capabilities of `Client` (`clusterCreator.create`,
`vmCreator.create`, `vmCreator.listZones`), as pure fallible functions.
The second `create` argument is the project name. -/
structure GcpEnv where
  gkeCreate : String → clusterConfig → Except String InstanceInfo
  gceCreate : String → virtualMachineConfig → Except String InstanceInfo
  listZones : String → Except String (List String)

/-- One concurrent creation task as enqueued by the dispatch loop: the
captured project name and the spec with its zone already assigned. -/
inductive CreationTask where
  | cluster (project : String) (cfg : clusterConfig)
  | vm (project : String) (cfg : virtualMachineConfig)
deriving DecidableEq, Repr

/-- The outcome of a run.  `error` is a returned Go error, `panic` a Go
runtime panic, `deadlock` a run that blocks forever (producers stuck on a
full channel, `errGroup.Wait` never returning). -/
inductive Outcome (α : Type) where
  | ok (a : α)
  | error (msg : String)
  | panic
  | deadlock
deriving DecidableEq, Repr

/-- `common.UserData` restricted to the one key `construct` sets
(`ResourceConfigType`, holding the inventory). -/
structure UserData where
  resourceConfig : Option ResourceInfo := none
deriving DecidableEq

/-- The `popProject` closure: pops the last project of the given kind from
the (single, shared) map, or yields `none` on exhaustion.  Returns the
popped project and the map as the closure leaves it. -/
def popProject (m : TypeToResources) (rType : String) : Option Resource × TypeToResources :=
  match (ttrGet m rType).getLast? with
  | none => (none, m)
  | some r => (some r, ttrSet m rType (ttrGet m rType).dropLast)

/-- Zone assignment for one cluster spec (`if cl.Zone == "" { cl.Zone =
zoneRing.next() }`): an empty zone draws one value from the ring, an
explicit zone leaves ring and spec untouched.  `none` is the panic of
`next` on an empty ring. -/
def assignClusterZone (ring : stringRing) (cl : clusterConfig) :
    Option (clusterConfig × stringRing) :=
  if cl.Zone == "" then
    match ring.next with
    | none => none
    | some (z, ring2) => some ({ cl with Zone := z }, ring2)
  else
    some (cl, ring)

/-- Zone assignment for one vm spec; same shape as `assignClusterZone`. -/
def assignVmZone (ring : stringRing) (vm : virtualMachineConfig) :
    Option (virtualMachineConfig × stringRing) :=
  if vm.Zone == "" then
    match ring.next with
    | none => none
    | some (z, ring2) => some ({ vm with Zone := z }, ring2)
  else
    some (vm, ring)

/-- The `for i := range pc.Clusters` loop: assign zones in order, threading
the ring, and enqueue one task per spec. -/
def enqueueClusters (project : String) (ring : stringRing) :
    List clusterConfig → Option (List CreationTask × stringRing)
  | [] => some ([], ring)
  | cl :: rest =>
    match assignClusterZone ring cl with
    | none => none
    | some (cl2, ring2) =>
      match enqueueClusters project ring2 rest with
      | none => none
      | some (ts, ring3) => some (CreationTask.cluster project cl2 :: ts, ring3)

/-- The `for j := range pc.Vms` loop. -/
def enqueueVms (project : String) (ring : stringRing) :
    List virtualMachineConfig → Option (List CreationTask × stringRing)
  | [] => some ([], ring)
  | vm :: rest =>
    match assignVmZone ring vm with
    | none => none
    | some (vm2, ring2) =>
      match enqueueVms project ring2 rest with
      | none => none
      | some (ts, ring3) => some (CreationTask.vm project vm2 :: ts, ring3)

/-- The dispatch loop over one kind's project configs: per config, pop a
project (exhaustion is fatal), list its zones (failure is fatal), build a
zone ring, and enqueue the cluster then vm tasks.  Returns the enqueued
tasks (also the ones enqueued before a failure — their goroutines are
already running) together with the outcome and the map state. -/
def dispatchGroup (env : GcpEnv) (rType : String) :
    List projectConfig → TypeToResources → Outcome (List CreationTask) × List CreationTask × TypeToResources
  | [], types => (Outcome.ok [], [], types)
  | pc :: rest, types =>
    match popProject types rType with
    | (none, types2) =>
      (Outcome.error "running out of project while creating resources", [], types2)
    | (some project, types2) =>
      match env.listZones project.name with
      | Except.error e => (Outcome.error e, [], types2)
      | Except.ok zones =>
        let zoneRing := newStringRing zones
        match enqueueClusters project.name zoneRing pc.Clusters with
        | none => (Outcome.panic, [], types2)
        | some (cts, ring2) =>
          match enqueueVms project.name ring2 pc.Vms with
          | none => (Outcome.panic, cts, types2)
          | some (vts, _) =>
            match dispatchGroup env rType rest types2 with
            | (Outcome.ok ts, _, types3) => (Outcome.ok (cts ++ vts ++ ts), [], types3)
            | (out, enq, types3) => (out, cts ++ vts ++ enq, types3)

/-- The outer dispatch loop over resource kinds (Go iterates the map in
unspecified order; the model iterates in list order). -/
def dispatch (env : GcpEnv) :
    resourceConfigs → TypeToResources → Outcome (List CreationTask) × List CreationTask × TypeToResources
  | [], types => (Outcome.ok [], [], types)
  | (rType, pcs) :: rest, types =>
    match dispatchGroup env rType pcs types with
    | (Outcome.ok ts, _, types2) =>
      match dispatch env rest types2 with
      | (Outcome.ok ts2, _, types3) => (Outcome.ok (ts ++ ts2), [], types3)
      | (out, enq, types3) => (out, ts ++ enq, types3)
    | (out, enq, types2) => (out, enq, types2)

/-- The creator call a task performs. -/
def runCreator (env : GcpEnv) : CreationTask → Except String InstanceInfo
  | CreationTask.cluster project cfg => env.gkeCreate project cfg
  | CreationTask.vm project cfg => env.gceCreate project cfg

/-- The task body's successful send: a `com` with exactly the variant of
the task populated. -/
def taskCom : CreationTask → InstanceInfo → com
  | CreationTask.cluster project _, info => { p := project, ci := some info }
  | CreationTask.vm project _, info => { p := project, vmi := some info }

/-- The `errgroup` fan-out under the canonical schedule (tasks settle in
dispatch order, cancellation observed immediately): returns the `com`
values sent on the channel, the first error (the failing task's own
creator error), and the tasks whose creator was actually invoked. -/
def runTasks (env : GcpEnv) : List CreationTask → List com × Option String × List CreationTask
  | [] => ([], none, [])
  | t :: rest =>
    match runCreator env t with
    | Except.error e => ([], some e, [t])
    | Except.ok info =>
      match runTasks env rest with
      | (coms, firstErr, invoked) => (taskCom t info :: coms, firstErr, t :: invoked)

/-- Go map read with existence flag, as in
`pi, exists := info[c.p]; if !exists { pi = ProjectInfo{} }`. -/
def infoGet (info : ResourceInfo) (k : String) : ProjectInfo :=
  match List.find? (fun e => e.1 == k) info with
  | some e => e.2
  | none => {}

/-- Go map write `info[c.p] = pi`. -/
def infoSet (info : ResourceInfo) (k : String) (v : ProjectInfo) : ResourceInfo :=
  match info with
  | [] => [(k, v)]
  | e :: rest => if e.1 == k then (k, v) :: rest else e :: infoSet rest k v

/-- One step of the aggregation loop: append to the clusters list when
`c.ci != nil`, otherwise dereference `c.vmi` unguarded — a nil `vmi` there
is a Go panic, modelled as `none`. -/
def aggregateStep (info : ResourceInfo) (c : com) : Option ResourceInfo :=
  let pi := infoGet info c.p
  match c.ci with
  | some i => some (infoSet info c.p { pi with Clusters := pi.Clusters ++ [i] })
  | none =>
    match c.vmi with
    | none => none
    | some i => some (infoSet info c.p { pi with VMs := pi.VMs ++ [i] })

/-- The `for c := range communication` drain loop, folding results into the
inventory in arrival order. -/
def aggregate (info : ResourceInfo) : List com → Option ResourceInfo
  | [] => some info
  | c :: rest =>
    match aggregateStep info c with
    | none => none
    | some info2 => aggregate info2 rest

/-- Everything `construct` produces: the outcome (user data and inventory
on success), the final state of the caller's `types` map (shared with the
run via the Go map header copy `typesCopy := types`), and the creator
invocations that happened. -/
structure RunResult where
  outcome : Outcome (UserData × ResourceInfo)
  typesAfter : TypeToResources
  invoked : List CreationTask

/-- `(resourceConfigs).construct`: the provisioning run.  `env = none`
models an unset `gcpClient`.  A dispatch-phase failure returns at once
while already-enqueued goroutines run (their creators count as invoked);
after a successful dispatch the run deadlocks if the successful sends
exceed the channel capacity `maxChannels`, fails with the first task
error otherwise, and on full success drains the channel into the
inventory and stores it in the user data. -/
def construct (env : Option GcpEnv) (_res : Resource) (rc : resourceConfigs)
    (types : TypeToResources) : RunResult :=
  match env with
  | none => { outcome := Outcome.error "client not set", typesAfter := types, invoked := [] }
  | some env =>
    match dispatch env rc types with
    | (Outcome.ok tasks, _, types2) =>
      match runTasks env tasks with
      | (coms, firstErr, invoked) =>
        if maxChannels < coms.length then
          { outcome := Outcome.deadlock, typesAfter := types2, invoked := invoked }
        else
          match firstErr with
          | some e =>
            { outcome := Outcome.error e, typesAfter := types2, invoked := invoked }
          | none =>
            match aggregate [] coms with
            | none => { outcome := Outcome.panic, typesAfter := types2, invoked := invoked }
            | some info =>
              { outcome := Outcome.ok ({ resourceConfig := some info }, info),
                typesAfter := types2, invoked := invoked }
    | (Outcome.error e, enq, types2) =>
      { outcome := Outcome.error e, typesAfter := types2, invoked := enq }
    | (Outcome.panic, enq, types2) =>
      { outcome := Outcome.panic, typesAfter := types2, invoked := enq }
    | (Outcome.deadlock, enq, types2) =>
      { outcome := Outcome.deadlock, typesAfter := types2, invoked := enq }

/-- The project a task belongs to. -/
def taskProject : CreationTask → String
  | CreationTask.cluster project _ => project
  | CreationTask.vm project _ => project

/-- Number of instances recorded for one project entry. -/
def entrySize (pi : ProjectInfo) : Nat :=
  pi.Clusters.length + pi.VMs.length

/-- Total number of clusters plus vms across the whole inventory. -/
def totalInstances (info : ResourceInfo) : Nat :=
  (info.map (fun e => entrySize e.2)).sum

/-- The project keys of the inventory. -/
def infoKeys (info : ResourceInfo) : List String :=
  info.map Prod.fst

/-- Exactly one of the two variants of a `com` is populated. -/
def comWellFormed (c : com) : Prop :=
  (c.ci.isSome ∧ c.vmi = none) ∨ (c.ci = none ∧ c.vmi.isSome)

/-- Number of creation tasks a list of project configs asks for. -/
def numTasks (pcs : List projectConfig) : Nat :=
  (pcs.map (fun pc => pc.Clusters.length + pc.Vms.length)).sum

/-- Number of tasks the dispatch phase enqueues (0 when dispatch fails). -/
def dispatchedCount (env : GcpEnv) (rc : resourceConfigs) (types : TypeToResources) : Nat :=
  match (dispatch env rc types).1 with
  | Outcome.ok ts => ts.length
  | _ => 0

/-- Test environment: creators succeed deterministically, every project
lists the zones `us-a`, `us-b`. -/
def envOk : GcpEnv :=
  { gkeCreate := fun _p cfg => Except.ok { name := "cluster-" ++ cfg.Zone, zone := cfg.Zone }
    gceCreate := fun _p cfg => Except.ok { name := "vm-" ++ cfg.Zone, zone := cfg.Zone }
    listZones := fun _p => Except.ok ["us-a", "us-b"] }

/-- Test environment in which `listZones` reports no zones at all. -/
def envNoZones : GcpEnv :=
  { envOk with listZones := fun _p => Except.ok [] }

/-- Test environment whose cluster creator always fails. -/
def envClusterFails : GcpEnv :=
  { envOk with gkeCreate := fun _p _cfg => Except.error "cluster creation failed" }

/-- The concrete request of the spec's scenario: one cluster and one vm,
no explicit zones, on the kind `pool-X`. -/
def rcScenario : resourceConfigs :=
  [("pool-X", [{ Clusters := [{}], Vms := [{}] }])]

/-- A pool holding the single project `proj-1` of kind `pool-X`. -/
def typesScenario : TypeToResources :=
  [("pool-X", [{ name := "proj-1" }])]

/-- A request group with 101 creation tasks (zones pinned so the ring is
not consulted). -/
def rcBig : resourceConfigs :=
  [("pool-X", [{ Clusters := List.replicate 101 { Zone := "us-a" } }])]

/-- A request group with two project configs on one kind. -/
def rcTwoProjects : resourceConfigs :=
  [("pool-X", [{ Clusters := [{ Zone := "us-a" }] }, { Vms := [{}] }])]

/-- The resource being constructed (only its name is ever read). -/
def resFixture : Resource := { name := "res-1" }

/-- A request comprising a single cluster spec with no explicit zone. -/
def rcOneCluster : resourceConfigs :=
  [("pool-X", [{ Clusters := [{}] }])]

/-- The two project configs of `rcTwoProjects`, standalone. -/
def pcsTwo : List projectConfig :=
  [{ Clusters := [{ Zone := "us-a" }] }, { Vms := [{}] }]

lemma stringRing_next_of_lt (r : stringRing) (h : r.index < r.values.length) :
    r.next = some (r.values.getD r.index "",
      { r with index := (r.index + 1) % r.values.length }) := by
  unfold stringRing.next
  rw [List.get?_eq_get h, List.getD_eq_get _ _ h]

lemma draws_mod (zs : List String) :
    ∀ (n i : Nat), i < zs.length →
      stringRing.draws { index := i, values := zs } n =
        some ((List.range n).map (fun k => zs.getD ((i + k) % zs.length) "")) := by
  intro n
  induction n with
  | zero => intro i _; simp [stringRing.draws]
  | succ n ih =>
    intro i hi
    have hlen : 0 < zs.length := Nat.lt_of_le_of_lt (Nat.zero_le i) hi
    rw [stringRing.draws, stringRing_next_of_lt _ (by simpa using hi)]
    simp only
    rw [ih ((i + 1) % zs.length) (Nat.mod_lt _ hlen)]
    simp only [Option.map_some']
    congr 1
    rw [List.range_succ_eq_map, List.map_cons, List.map_map]
    congr 1
    · simp [Nat.mod_eq_of_lt hi]
    · apply List.map_congr_left
      intro k _
      simp only [Function.comp]
      rw [Nat.mod_add_mod]
      have harg : i + 1 + k = i + k.succ := by omega
      rw [harg]

/-- Claim C6: for every non-empty zone list, successive next() calls on a
fresh ring return the zones in the order supplied and wrap to the first
element after the last — the k-th draw is the zone at position k modulo the
list length. -/
theorem C6_zone_round_robin (zs : List String) (h : zs ≠ []) (n : Nat) :
    stringRing.draws (newStringRing zs) n =
      some ((List.range n).map (fun k => zs.getD (k % zs.length) "")) := by
  have h0 : 0 < zs.length := List.length_pos.mpr h
  have := draws_mod zs n 0 h0
  simpa [newStringRing] using this

/-- Witness for C6 at the spec's example: a ring over [a, b, c] yields
a, b, c, a on the first four draws. -/
theorem C6_zone_round_robin_witness :
    stringRing.draws (newStringRing ["a", "b", "c"]) 4 = some ["a", "b", "c", "a"] := by
  rw [C6_zone_round_robin ["a", "b", "c"] (by decide) 4]
  rfl

/-- Claim C7: a cluster or vm spec carrying an explicit non-empty zone is
enqueued unchanged and leaves the ring untouched (the cursor does not
advance), while a spec with an empty zone draws exactly one value (the
cursor advances one step); the assignment happens in the sequential
enqueue loop, so the task is created with the zone already resolved. -/
theorem C7_explicit_zone_bypass (p : String) (ring : stringRing)
    (cl : clusterConfig) (vm : virtualMachineConfig)
    (cl0 : clusterConfig) (vm0 : virtualMachineConfig)
    (hcl : cl.Zone ≠ "") (hvm : vm.Zone ≠ "")
    (hcl0 : cl0.Zone = "") (hvm0 : vm0.Zone = "")
    (hidx : ring.index < ring.values.length) :
    enqueueClusters p ring [cl] = some ([CreationTask.cluster p cl], ring) ∧
    enqueueVms p ring [vm] = some ([CreationTask.vm p vm], ring) ∧
    (∃ z, assignClusterZone ring cl0 =
      some ({ cl0 with Zone := z },
        { ring with index := (ring.index + 1) % ring.values.length })) ∧
    (∃ z, assignVmZone ring vm0 =
      some ({ vm0 with Zone := z },
        { ring with index := (ring.index + 1) % ring.values.length })) := by
  have hnext := stringRing_next_of_lt ring hidx
  refine ⟨?_, ?_, ?_, ?_⟩
  · simp [enqueueClusters, assignClusterZone, hcl]
  · simp [enqueueVms, assignVmZone, hvm]
  · exact ⟨ring.values.getD ring.index "", by simp [assignClusterZone, hcl0, hnext]⟩
  · exact ⟨ring.values.getD ring.index "", by simp [assignVmZone, hvm0, hnext]⟩

/-- Witness for C7 at a concrete ring and specs. -/
theorem C7_explicit_zone_bypass_witness :
    enqueueClusters "proj" { index := 0, values := ["a", "b"] } [{ Zone := "z1" }] =
      some ([CreationTask.cluster "proj" { Zone := "z1" }],
        { index := 0, values := ["a", "b"] }) ∧
    enqueueVms "proj" { index := 0, values := ["a", "b"] } [{ Zone := "z2" }] =
      some ([CreationTask.vm "proj" { Zone := "z2" }],
        { index := 0, values := ["a", "b"] }) ∧
    (∃ z, assignClusterZone { index := 0, values := ["a", "b"] } {} =
      some ({ Zone := z }, { index := 1 % 2, values := ["a", "b"] })) ∧
    (∃ z, assignVmZone { index := 0, values := ["a", "b"] } {} =
      some ({ Zone := z }, { index := 1 % 2, values := ["a", "b"] })) :=
  C7_explicit_zone_bypass "proj" { index := 0, values := ["a", "b"] }
    { Zone := "z1" } { Zone := "z2" } {} {}
    (by decide) (by decide) rfl rfl (by decide)

/-- Claim C8 fails on the code: building a ring from the empty zone list
does not fail (`newStringRing` returns a ring with no values), and
`construct` does not guard the call — with a provider reporting no zones
and a spec with no explicit zone, the run reaches next() on the empty
ring, whose read of `values[0]` is out of range (a runtime panic). -/
theorem C8_counterexample :
    newStringRing [] = { index := 0, values := [] } ∧
    stringRing.next (newStringRing []) = none ∧
    (construct (some envNoZones) resFixture rcScenario typesScenario).outcome =
      Outcome.panic :=
  ⟨rfl, rfl, rfl⟩

/-- Claim C8 (amended): ring construction never fails, even on an empty
zone list, and next() on such a ring is an out-of-range access; but on any
ring whose zone list is non-empty and whose cursor is in range (as holds
for every freshly built ring and is preserved by every draw), next()
succeeds with an element of the zone list and keeps the cursor in range —
it never accesses an index outside the zone list. -/
theorem C8_next_in_bounds (r : stringRing) (h : r.values ≠ [])
    (hidx : r.index < r.values.length) :
    (newStringRing r.values).index = 0 ∧
    ∃ v r2, r.next = some (v, r2) ∧ v ∈ r.values ∧ r2.values = r.values ∧
      r2.index < r2.values.length := by
  have hlen : 0 < r.values.length := List.length_pos.mpr h
  refine ⟨rfl, r.values.getD r.index "",
    { r with index := (r.index + 1) % r.values.length },
    stringRing_next_of_lt r hidx, ?_, rfl, Nat.mod_lt _ hlen⟩
  rw [List.getD_eq_get _ _ hidx]
  exact List.get_mem _ _ _

/-- Witness for C8 (amended) at a concrete one-zone ring. -/
theorem C8_next_in_bounds_witness :
    (newStringRing ["us-a"]).index = 0 ∧
    ∃ v r2, stringRing.next { index := 0, values := ["us-a"] } = some (v, r2) ∧
      v ∈ ["us-a"] ∧ r2.values = ["us-a"] ∧ r2.index < r2.values.length :=
  C8_next_in_bounds { index := 0, values := ["us-a"] } (by decide) (by decide)

/-- Claim C9: the concrete scenario — one cluster spec and one vm spec of
kind pool-X, a pool holding the single project proj-1 with zones
[us-a, us-b], no explicit zones — assigns us-a to the cluster and us-b to
the vm (clusters draw from the ring before vms), and the inventory maps
proj-1 to exactly that cluster and that vm. -/
theorem C9_concrete_scenario :
    (construct (some envOk) resFixture rcScenario typesScenario).outcome =
      Outcome.ok
        ({ resourceConfig := some [("proj-1",
            { Clusters := [{ name := "cluster-us-a", zone := "us-a" }],
              VMs := [{ name := "vm-us-b", zone := "us-b" }] })] },
         [("proj-1",
            { Clusters := [{ name := "cluster-us-a", zone := "us-a" }],
              VMs := [{ name := "vm-us-b", zone := "us-b" }] })]) := rfl

/-- Claim C1 fails on the code: the result channel capacity is the fixed
constant maxChannels = 100, not the number of enqueued tasks.  A request
group dispatching 101 tasks exceeds it, and the run deadlocks — producers
block on the full channel before the aggregator (which starts only after
all tasks settle) consumes anything. -/
theorem C1_counterexample :
    dispatchedCount envOk rcBig typesScenario = 101 ∧
    maxChannels < dispatchedCount envOk rcBig typesScenario ∧
    (construct (some envOk) resFixture rcBig typesScenario).outcome =
      Outcome.deadlock :=
  ⟨rfl, by decide, rfl⟩

lemma runTasks_coms_length_le (env : GcpEnv) :
    ∀ tasks : List CreationTask, (runTasks env tasks).1.length ≤ tasks.length := by
  intro tasks
  induction tasks with
  | nil => simp [runTasks]
  | cons t rest ih =>
    rcases hrt : runTasks env rest with ⟨coms, firstErr, invoked⟩
    rw [hrt] at ih
    cases hc : runCreator env t with
    | error e => simp [runTasks, hc]
    | ok info =>
      simp only [runTasks, hc, hrt, List.length_cons]
      exact Nat.succ_le_succ ih

/-- Claim C1 (amended): producers never block — the run cannot deadlock —
whenever the number of dispatched tasks is at most the fixed channel
capacity maxChannels = 100; the channel is not sized to the task count. -/
theorem C1_no_blocking_upto_capacity (env : GcpEnv) (res : Resource)
    (rc : resourceConfigs) (types : TypeToResources)
    (tasks enq : List CreationTask) (types2 : TypeToResources)
    (hd : dispatch env rc types = (Outcome.ok tasks, enq, types2))
    (hcap : tasks.length ≤ maxChannels) :
    (construct (some env) res rc types).outcome ≠ Outcome.deadlock := by
  have hle : (runTasks env tasks).1.length ≤ tasks.length :=
    runTasks_coms_length_le env tasks
  rcases hrt : runTasks env tasks with ⟨coms, firstErr, invoked⟩
  rw [hrt] at hle
  have hle2 : coms.length ≤ tasks.length := hle
  simp only [construct, hd, hrt]
  rw [if_neg (by omega)]
  cases firstErr with
  | some e => simp
  | none =>
    cases hagg : aggregate [] coms with
    | none => simp
    | some info => simp

/-- Witness for C1 (amended) at the two-task scenario run. -/
theorem C1_no_blocking_upto_capacity_witness :
    (construct (some envOk) resFixture rcScenario typesScenario).outcome ≠
      Outcome.deadlock :=
  C1_no_blocking_upto_capacity envOk resFixture rcScenario typesScenario
    [CreationTask.cluster "proj-1" { Name := "", Zone := "us-a" },
     CreationTask.vm "proj-1" { Name := "", Zone := "us-b" }]
    [] [("pool-X", [])] rfl (by decide)

/-- Claim C2 is contradicted by the code: `typesCopy := types` copies only
the Go map header, so both names denote one table and `popProject` writes
through it.  Evaluating a successful run against a one-project pool shows
the caller's map (the final shared-map state `typesAfter`) no longer
contains proj-1, although it did before the run. -/
theorem C2_pool_mutation_eval :
    ttrGet typesScenario "pool-X" = [{ name := "proj-1" }] ∧
    (construct (some envOk) resFixture rcScenario typesScenario).typesAfter =
      [("pool-X", [])] ∧
    ttrGet (construct (some envOk) resFixture rcScenario typesScenario).typesAfter
      "pool-X" = [] :=
  ⟨rfl, rfl, rfl⟩

lemma runTasks_first_error (env : GcpEnv) :
    ∀ (tasks : List CreationTask) (i : Nat) (hi : i < tasks.length) (e : String),
      runCreator env (tasks.get ⟨i, hi⟩) = Except.error e →
      (∀ j (hj : j < i),
        ∃ info, runCreator env (tasks.get ⟨j, Nat.lt_trans hj hi⟩) = Except.ok info) →
      ∃ coms invoked, runTasks env tasks = (coms, some e, invoked) ∧ coms.length = i := by
  intro tasks
  induction tasks with
  | nil => intro i hi; exact absurd hi (by simp)
  | cons t rest ih =>
    intro i hi e he hb
    cases i with
    | zero =>
      have ht : runCreator env t = Except.error e := by simpa using he
      exact ⟨[], [t], by simp [runTasks, ht], rfl⟩
    | succ i' =>
      obtain ⟨info, h0⟩ := hb 0 (Nat.succ_pos i')
      have ht : runCreator env t = Except.ok info := by simpa using h0
      have hi' : i' < rest.length := by simpa using hi
      obtain ⟨coms, invoked, hrt, hlen⟩ :=
        ih i' hi' e (by simpa using he) (fun j hj => by
          obtain ⟨info', h'⟩ := hb (j + 1) (Nat.succ_lt_succ hj)
          exact ⟨info', by simpa using h'⟩)
      refine ⟨taskCom t info :: coms, t :: invoked, ?_, by simp [hlen]⟩
      simp [runTasks, ht, hrt]

/-- Claim C3: when the tasks before position i all succeed and task i's
creator fails with error e — under the canonical schedule, task i is the
first failing task — construct returns exactly that original creator error
(not a derived cancellation error) and no inventory at all: the error
outcome carries neither a ResourceInfo nor a UserData. -/
theorem C3_first_error_no_partial (env : GcpEnv) (res : Resource)
    (rc : resourceConfigs) (types : TypeToResources)
    (tasks enq : List CreationTask) (types2 : TypeToResources)
    (i : Nat) (e : String)
    (hd : dispatch env rc types = (Outcome.ok tasks, enq, types2))
    (hi : i < tasks.length)
    (he : runCreator env (tasks.get ⟨i, hi⟩) = Except.error e)
    (hb : ∀ j (hj : j < i),
      ∃ info, runCreator env (tasks.get ⟨j, Nat.lt_trans hj hi⟩) = Except.ok info)
    (hcap : i ≤ maxChannels) :
    (construct (some env) res rc types).outcome = Outcome.error e := by
  obtain ⟨coms, invoked, hrt, hlen⟩ := runTasks_first_error env tasks i hi e he hb
  simp only [construct, hd, hrt]
  rw [if_neg (by omega)]

/-- Witness for C3: against a pool with one project, a single cluster task
whose creator fails surfaces exactly the creator's error. -/
theorem C3_first_error_no_partial_witness :
    (construct (some envClusterFails) resFixture rcOneCluster typesScenario).outcome =
      Outcome.error "cluster creation failed" :=
  C3_first_error_no_partial envClusterFails resFixture rcOneCluster typesScenario
    [CreationTask.cluster "proj-1" { Name := "", Zone := "us-a" }]
    [] [("pool-X", [])] 0 "cluster creation failed"
    rfl (by decide) rfl (fun j hj => absurd hj (Nat.not_lt_zero j)) (by decide)

lemma ttrGet_ttrSet_self (m : TypeToResources) (k : String) (v : List Resource) :
    ttrGet (ttrSet m k v) k = v := by
  induction m with
  | nil => simp [ttrGet, ttrSet, List.find?]
  | cons e rest ih =>
    by_cases h : e.1 = k
    · simp [ttrGet, ttrSet, List.find?, h]
    · have hb : (e.1 == k) = false := beq_false_of_ne h
      simp only [ttrSet, hb, Bool.false_eq_true, if_false]
      simpa [ttrGet, List.find?, hb] using ih

lemma enqueueClusters_ok (p : String) :
    ∀ (cfgs : List clusterConfig) (ring : stringRing),
      ring.index < ring.values.length →
      ∃ ts ring2, enqueueClusters p ring cfgs = some (ts, ring2) ∧
        ts.length = cfgs.length ∧ ring2.values = ring.values ∧
        ring2.index < ring2.values.length := by
  intro cfgs
  induction cfgs with
  | nil => intro ring h; exact ⟨[], ring, rfl, rfl, rfl, h⟩
  | cons cl rest ih =>
    intro ring h
    have hlen : 0 < ring.values.length := Nat.lt_of_le_of_lt (Nat.zero_le _) h
    by_cases hz : cl.Zone = ""
    · have hnext := stringRing_next_of_lt ring h
      obtain ⟨ts, ring3, h1, h2, h3, h4⟩ :=
        ih { ring with index := (ring.index + 1) % ring.values.length }
          (by simpa using Nat.mod_lt _ hlen)
      exact ⟨CreationTask.cluster p { cl with Zone := ring.values.getD ring.index "" } :: ts,
        ring3, by simp [enqueueClusters, assignClusterZone, hz, hnext, h1],
        by simp [h2], h3, h4⟩
    · obtain ⟨ts, ring3, h1, h2, h3, h4⟩ := ih ring h
      exact ⟨CreationTask.cluster p cl :: ts, ring3,
        by simp [enqueueClusters, assignClusterZone, hz, h1],
        by simp [h2], h3, h4⟩

lemma enqueueVms_ok (p : String) :
    ∀ (cfgs : List virtualMachineConfig) (ring : stringRing),
      ring.index < ring.values.length →
      ∃ ts ring2, enqueueVms p ring cfgs = some (ts, ring2) ∧
        ts.length = cfgs.length ∧ ring2.values = ring.values ∧
        ring2.index < ring2.values.length := by
  intro cfgs
  induction cfgs with
  | nil => intro ring h; exact ⟨[], ring, rfl, rfl, rfl, h⟩
  | cons vm rest ih =>
    intro ring h
    have hlen : 0 < ring.values.length := Nat.lt_of_le_of_lt (Nat.zero_le _) h
    by_cases hz : vm.Zone = ""
    · have hnext := stringRing_next_of_lt ring h
      obtain ⟨ts, ring3, h1, h2, h3, h4⟩ :=
        ih { ring with index := (ring.index + 1) % ring.values.length }
          (by simpa using Nat.mod_lt _ hlen)
      exact ⟨CreationTask.vm p { vm with Zone := ring.values.getD ring.index "" } :: ts,
        ring3, by simp [enqueueVms, assignVmZone, hz, hnext, h1],
        by simp [h2], h3, h4⟩
    · obtain ⟨ts, ring3, h1, h2, h3, h4⟩ := ih ring h
      exact ⟨CreationTask.vm p vm :: ts, ring3,
        by simp [enqueueVms, assignVmZone, hz, h1],
        by simp [h2], h3, h4⟩

lemma dispatchGroup_exhaust (env : GcpEnv) (k : String)
    (hzones : ∀ p, ∃ zs, env.listZones p = Except.ok zs ∧ zs ≠ []) :
    ∀ (pcs : List projectConfig) (types : TypeToResources),
      (ttrGet types k).length < pcs.length →
      ∃ enq types2,
        dispatchGroup env k pcs types =
          (Outcome.error "running out of project while creating resources", enq, types2) ∧
        enq.length = numTasks (pcs.take (ttrGet types k).length) := by
  intro pcs
  induction pcs with
  | nil => intro types h; exact absurd h (by simp)
  | cons pc rest ih =>
    intro types h
    rcases hl : (ttrGet types k).getLast? with _ | r
    · have hnil : ttrGet types k = [] := List.getLast?_eq_none.mp hl
      refine ⟨[], types, ?_, by simp [hnil, numTasks]⟩
      simp [dispatchGroup, popProject, hl]
    · have hne : ttrGet types k ≠ [] := by
        intro hc; rw [hc] at hl; simp at hl
      have hpos : 0 < (ttrGet types k).length := List.length_pos.mpr hne
      obtain ⟨zs, hz, hzne⟩ := hzones r.name
      have hring : (newStringRing zs).index < (newStringRing zs).values.length := by
        simpa [newStringRing] using List.length_pos.mpr hzne
      obtain ⟨cts, ring2, hc1, hc2, hc3, hc4⟩ :=
        enqueueClusters_ok r.name pc.Clusters (newStringRing zs) hring
      obtain ⟨vts, ring3, hv1, hv2, hv3, hv4⟩ := enqueueVms_ok r.name pc.Vms ring2 hc4
      have hget2 : ttrGet (ttrSet types k (ttrGet types k).dropLast) k =
          (ttrGet types k).dropLast := ttrGet_ttrSet_self types k _
      have hlt2 : (ttrGet (ttrSet types k (ttrGet types k).dropLast) k).length <
          rest.length := by
        rw [hget2, List.length_dropLast]
        simp only [List.length_cons] at h
        omega
      obtain ⟨enq, types3, hd1, hd2⟩ := ih (ttrSet types k (ttrGet types k).dropLast) hlt2
      refine ⟨cts ++ vts ++ enq, types3, ?_, ?_⟩
      · simp [dispatchGroup, popProject, hl, hz, hc1, hv1, hd1]
      · rw [hget2, List.length_dropLast] at hd2
        have htake : (pc :: rest).take (ttrGet types k).length =
            pc :: rest.take ((ttrGet types k).length - 1) := by
          cases hlen : (ttrGet types k).length with
          | zero => omega
          | succ n => simp [List.take_succ_cons]
        rw [htake]
        simp only [numTasks, List.map_cons, List.sum_cons, List.length_append]
        rw [hc2, hv2]
        simp only [numTasks] at hd2
        omega

/-- Claim C4: when one kind's project configs outnumber the pool's projects
of that kind (and zone listing succeeds with non-empty zone lists, so no
earlier failure intervenes), the run fails with the pool-exhaustion error,
the error outcome carries no inventory, and the creators invoked are
exactly the tasks of the specs strictly before the one that found the pool
empty: their count is the task count of that satisfiable prefix, so no
creator is invoked for the spec that hit exhaustion or any later one. -/
theorem C4_pool_exhaustion (env : GcpEnv) (res : Resource) (k : String)
    (pcs : List projectConfig) (types : TypeToResources)
    (hzones : ∀ p, ∃ zs, env.listZones p = Except.ok zs ∧ zs ≠ [])
    (hcount : (ttrGet types k).length < pcs.length) :
    (construct (some env) res [(k, pcs)] types).outcome =
      Outcome.error "running out of project while creating resources" ∧
    (construct (some env) res [(k, pcs)] types).invoked.length =
      numTasks (pcs.take (ttrGet types k).length) := by
  obtain ⟨enq, types2, hd, hlen⟩ := dispatchGroup_exhaust env k hzones pcs types hcount
  constructor
  · simp [construct, dispatch, hd]
  · simp [construct, dispatch, hd, hlen]

/-- Witness for C4: two project configs of kind pool-X against a pool with
one project — the run fails with pool exhaustion and only the first
config's single task could have invoked its creator. -/
theorem C4_pool_exhaustion_witness :
    (construct (some envOk) resFixture [("pool-X", pcsTwo)] typesScenario).outcome =
      Outcome.error "running out of project while creating resources" ∧
    (construct (some envOk) resFixture [("pool-X", pcsTwo)] typesScenario).invoked.length =
      numTasks (pcsTwo.take (ttrGet typesScenario "pool-X").length) :=
  C4_pool_exhaustion envOk resFixture "pool-X" pcsTwo typesScenario
    (fun _p => ⟨["us-a", "us-b"], rfl, by decide⟩) (by decide)

lemma taskCom_p (t : CreationTask) (info : InstanceInfo) :
    (taskCom t info).p = taskProject t := by
  cases t <;> rfl

lemma taskCom_wf (t : CreationTask) (info : InstanceInfo) :
    comWellFormed (taskCom t info) := by
  cases t <;> simp [taskCom, comWellFormed]

lemma runTasks_all_ok (env : GcpEnv) :
    ∀ tasks : List CreationTask,
      (∀ t ∈ tasks, ∃ info, runCreator env t = Except.ok info) →
      ∃ coms, runTasks env tasks = (coms, none, tasks) ∧
        coms.map com.p = tasks.map taskProject ∧ ∀ c ∈ coms, comWellFormed c := by
  intro tasks
  induction tasks with
  | nil => intro _; exact ⟨[], rfl, rfl, by simp⟩
  | cons t rest ih =>
    intro hok
    obtain ⟨info, h0⟩ := hok t (by simp)
    obtain ⟨coms, hrt, hmap, hwf⟩ := ih (fun t' ht' => hok t' (by simp [ht']))
    refine ⟨taskCom t info :: coms, by simp [runTasks, h0, hrt], ?_, ?_⟩
    · simp [taskCom_p, hmap]
    · intro c hc
      rcases List.mem_cons.mp hc with h | h
      · rw [h]; exact taskCom_wf t info
      · exact hwf c h

lemma totalInstances_cons (x : String × ProjectInfo) (l : ResourceInfo) :
    totalInstances (x :: l) = entrySize x.2 + totalInstances l := by
  simp [totalInstances]

lemma infoSet_total (k : String) (v : ProjectInfo) :
    ∀ info : ResourceInfo,
      totalInstances (infoSet info k v) + entrySize (infoGet info k) =
        totalInstances info + entrySize v := by
  intro info
  induction info with
  | nil =>
    simp [infoSet, infoGet, List.find?, totalInstances, entrySize]
  | cons e rest ih =>
    by_cases h : e.1 = k
    · simp only [infoSet, infoGet, List.find?, h, beq_self_eq_true, cond_true, if_true,
        totalInstances_cons]
      omega
    · have hb : (e.1 == k) = false := beq_false_of_ne h
      simp only [infoSet, hb, Bool.false_eq_true, if_false, totalInstances_cons]
      have hget : infoGet (e :: rest) k = infoGet rest k := by
        simp [infoGet, List.find?, hb]
      rw [hget]
      omega

lemma infoKeys_infoSet_mem (k : String) (v : ProjectInfo) (p : String) :
    ∀ info : ResourceInfo,
      p ∈ infoKeys (infoSet info k v) ↔ p ∈ infoKeys info ∨ p = k := by
  intro info
  induction info with
  | nil => simp [infoSet, infoKeys]
  | cons e rest ih =>
    by_cases h : e.1 = k
    · simp only [infoSet, h, beq_self_eq_true, if_true]
      simp [infoKeys, h]
      tauto
    · have hb : (e.1 == k) = false := beq_false_of_ne h
      simp only [infoSet, hb, Bool.false_eq_true, if_false]
      simp only [infoKeys, List.map_cons, List.mem_cons] at ih ⊢
      rw [ih]
      tauto

lemma infoKeys_infoSet_nodup (k : String) (v : ProjectInfo) :
    ∀ info : ResourceInfo,
      (infoKeys info).Nodup → (infoKeys (infoSet info k v)).Nodup := by
  intro info
  induction info with
  | nil => intro _; simp [infoSet, infoKeys]
  | cons e rest ih =>
    intro hnd
    simp only [infoKeys, List.map_cons, List.nodup_cons] at hnd
    by_cases h : e.1 = k
    · simp only [infoSet, h, beq_self_eq_true, if_true]
      simp only [infoKeys, List.map_cons, List.nodup_cons]
      exact ⟨by rw [← h]; exact hnd.1, hnd.2⟩
    · have hb : (e.1 == k) = false := beq_false_of_ne h
      simp only [infoSet, hb, Bool.false_eq_true, if_false]
      simp only [infoKeys, List.map_cons, List.nodup_cons]
      refine ⟨?_, ih hnd.2⟩
      intro hc
      rcases (infoKeys_infoSet_mem k v e.1 rest).mp hc with hm | hm
      · exact hnd.1 hm
      · exact h hm

lemma aggregateStep_ok (info : ResourceInfo) (c : com) (hwf : comWellFormed c) :
    ∃ info2, aggregateStep info c = some info2 ∧
      totalInstances info2 = totalInstances info + 1 ∧
      (∀ p, p ∈ infoKeys info2 ↔ p ∈ infoKeys info ∨ p = c.p) ∧
      ((infoKeys info).Nodup → (infoKeys info2).Nodup) := by
  rcases hwf with ⟨hci, hvmi⟩ | ⟨hci, hvmi⟩
  · obtain ⟨i, hi⟩ := Option.isSome_iff_exists.mp hci
    refine ⟨infoSet info c.p
      { infoGet info c.p with Clusters := (infoGet info c.p).Clusters ++ [i] },
      by simp [aggregateStep, hi], ?_,
      fun p => infoKeys_infoSet_mem c.p _ p info,
      fun h => infoKeys_infoSet_nodup c.p _ info h⟩
    have h1 := infoSet_total c.p
      { infoGet info c.p with Clusters := (infoGet info c.p).Clusters ++ [i] } info
    have h2 : entrySize { infoGet info c.p with
        Clusters := (infoGet info c.p).Clusters ++ [i] } =
        entrySize (infoGet info c.p) + 1 := by
      simp [entrySize]; omega
    rw [h2] at h1
    omega
  · obtain ⟨i, hi⟩ := Option.isSome_iff_exists.mp hvmi
    refine ⟨infoSet info c.p
      { infoGet info c.p with VMs := (infoGet info c.p).VMs ++ [i] },
      by simp [aggregateStep, hci, hi], ?_,
      fun p => infoKeys_infoSet_mem c.p _ p info,
      fun h => infoKeys_infoSet_nodup c.p _ info h⟩
    have h1 := infoSet_total c.p
      { infoGet info c.p with VMs := (infoGet info c.p).VMs ++ [i] } info
    have h2 : entrySize { infoGet info c.p with
        VMs := (infoGet info c.p).VMs ++ [i] } =
        entrySize (infoGet info c.p) + 1 := by
      simp [entrySize]; omega
    rw [h2] at h1
    omega

lemma aggregate_ok :
    ∀ (coms : List com) (info0 : ResourceInfo),
      (∀ c ∈ coms, comWellFormed c) → (infoKeys info0).Nodup →
      ∃ info, aggregate info0 coms = some info ∧
        (infoKeys info).Nodup ∧
        (∀ p, p ∈ infoKeys info ↔ p ∈ infoKeys info0 ∨ p ∈ coms.map com.p) ∧
        totalInstances info = totalInstances info0 + coms.length := by
  intro coms
  induction coms with
  | nil =>
    intro info0 _ hnd
    exact ⟨info0, rfl, hnd, by simp, by simp⟩
  | cons c rest ih =>
    intro info0 hwf hnd
    obtain ⟨info1, hstep, htot1, hmem1, hnd1⟩ :=
      aggregateStep_ok info0 c (hwf c (by simp))
    obtain ⟨info, hagg, hnd2, hmem2, htot2⟩ :=
      ih info1 (fun c' hc' => hwf c' (by simp [hc'])) (hnd1 hnd)
    refine ⟨info, by simp [aggregate, hstep, hagg], hnd2, ?_, ?_⟩
    · intro p
      rw [hmem2 p, hmem1 p]
      simp only [List.map_cons, List.mem_cons]
      tauto
    · rw [htot2, htot1]
      simp only [List.length_cons]
      omega

/-- Claim C5: on a run in which every dispatched task's creator succeeds
(and the task count fits the channel), construct succeeds and the
inventory has exactly one entry per project that had at least one
successful creation — its keys are duplicate-free and a project appears
iff some task belongs to it — and the total number of clusters plus vms
across all entries equals the number of dispatched tasks. -/
theorem C5_aggregation_completeness (env : GcpEnv) (res : Resource)
    (rc : resourceConfigs) (types : TypeToResources)
    (tasks enq : List CreationTask) (types2 : TypeToResources)
    (hd : dispatch env rc types = (Outcome.ok tasks, enq, types2))
    (hok : ∀ t ∈ tasks, ∃ info, runCreator env t = Except.ok info)
    (hcap : tasks.length ≤ maxChannels) :
    ∃ ud info, (construct (some env) res rc types).outcome = Outcome.ok (ud, info) ∧
      (infoKeys info).Nodup ∧
      (∀ p, p ∈ infoKeys info ↔ ∃ t ∈ tasks, taskProject t = p) ∧
      totalInstances info = tasks.length := by
  obtain ⟨coms, hrt, hmap, hwf⟩ := runTasks_all_ok env tasks hok
  have hclen : coms.length = tasks.length := by
    have := congrArg List.length hmap
    simpa using this
  obtain ⟨info, hagg, hnodup, hmem, htotal⟩ :=
    aggregate_ok coms [] hwf (by simp [infoKeys])
  refine ⟨{ resourceConfig := some info }, info, ?_, hnodup, ?_, ?_⟩
  · simp only [construct, hd, hrt]
    rw [if_neg (by omega)]
    simp [hagg]
  · intro p
    rw [hmem p, hmap]
    simp [infoKeys, List.mem_map, eq_comm]
  · rw [htotal, hclen]
    simp [totalInstances]

/-- Witness for C5: the single-cluster run against the one-project pool. -/
theorem C5_aggregation_completeness_witness :
    ∃ ud info,
      (construct (some envOk) resFixture rcOneCluster typesScenario).outcome =
        Outcome.ok (ud, info) ∧
      (infoKeys info).Nodup ∧
      (∀ p, p ∈ infoKeys info ↔
        ∃ t ∈ [CreationTask.cluster "proj-1" { Name := "", Zone := "us-a" }],
          taskProject t = p) ∧
      totalInstances info =
        [CreationTask.cluster "proj-1" { Name := "", Zone := "us-a" }].length :=
  C5_aggregation_completeness envOk resFixture rcOneCluster typesScenario
    [CreationTask.cluster "proj-1" { Name := "", Zone := "us-a" }]
    [] [("pool-X", [])] rfl
    (fun t ht => by
      simp only [List.mem_singleton] at ht
      subst ht
      exact ⟨{ name := "cluster-us-a", zone := "us-a" }, rfl⟩)
    (by decide)

lemma runTasks_coms_wf (env : GcpEnv) :
    ∀ (tasks : List CreationTask) (c : com),
      c ∈ (runTasks env tasks).1 → comWellFormed c := by
  intro tasks
  induction tasks with
  | nil => intro c hc; simp [runTasks] at hc
  | cons t rest ih =>
    intro c hc
    rcases hrt : runTasks env rest with ⟨coms, firstErr, invoked⟩
    cases h0 : runCreator env t with
    | error e => simp [runTasks, h0] at hc
    | ok info =>
      simp only [runTasks, h0, hrt, List.mem_cons] at hc
      rcases hc with h | h
      · rw [h]; exact taskCom_wf t info
      · exact ih c (by rw [hrt]; exact h)

/-- Claim C10: every com value a run's tasks place on the result channel
has exactly one of its two variants populated — cluster info or vm info,
never both and never neither — and consequently the aggregator's
unguarded dereference of the vm variant in its else branch never fails:
draining any channel content runTasks can produce never panics. -/
theorem C10_exactly_one_variant (env : GcpEnv) (tasks : List CreationTask) :
    (∀ c ∈ (runTasks env tasks).1, comWellFormed c) ∧
    (aggregate [] (runTasks env tasks).1).isSome := by
  have hwf : ∀ c ∈ (runTasks env tasks).1, comWellFormed c :=
    fun c hc => runTasks_coms_wf env tasks c hc
  obtain ⟨info, hagg, _, _, _⟩ :=
    aggregate_ok (runTasks env tasks).1 [] hwf (by simp [infoKeys])
  exact ⟨hwf, by simp [hagg]⟩

/-- Witness for C10 at a concrete run with one cluster and one vm task. -/
theorem C10_exactly_one_variant_witness :
    (∀ c ∈ (runTasks envOk
        [CreationTask.cluster "proj-1" { Zone := "us-a" },
         CreationTask.vm "proj-1" { Zone := "us-b" }]).1, comWellFormed c) ∧
    (aggregate [] (runTasks envOk
        [CreationTask.cluster "proj-1" { Zone := "us-a" },
         CreationTask.vm "proj-1" { Zone := "us-b" }]).1).isSome :=
  C10_exactly_one_variant envOk
    [CreationTask.cluster "proj-1" { Zone := "us-a" },
     CreationTask.vm "proj-1" { Zone := "us-b" }]
